import Mathlib

/-!
Verification of the chunk subsystem of the `minecraft` voxel-engine repository.

The TypeScript sources are shallowly embedded:
* `Uint8Array` block buffers become `List ℕ` (byte values, zero-initialised);
* JavaScript `number` arithmetic becomes exact arithmetic over `ℤ`/`ℚ`
  (IEEE-754 rounding is abstracted away; none of the proved statements
  depends on the rounding of a particular noise or distance value);
* `Math.floor`/`Math.round`/`Math.ceil` become `Int.floor`/`round`/`Int.ceil`
  (JavaScript `Math.round` rounds half-up, exactly Mathlib's `round`);
* `Math.sqrt` only ever occurs under `Math.floor`, `Math.ceil`, or in a
  comparison against a non-negative bound, so it is embedded exactly via
  integer square roots on the squared distance
  (for `q ≥ 0` and `n : ℕ`: `n ≤ √q ↔ n^2 ≤ q` and `n ≥ √q ↔ n^2 ≥ q`);
* stateful classes become structures with explicit state passing.
-/

namespace Minecraft

/-! ## blocks.ts -/

/-- Source `CHUNK_SIZE = 16` from Chunk.ts: 16×16×16 blocks per chunk. -/
def CHUNK_SIZE : ℕ := 16

/-- Total number of cells in a chunk buffer (`CHUNK_SIZE³ = 4096`). -/
def CHUNK_VOLUME : ℕ := CHUNK_SIZE * CHUNK_SIZE * CHUNK_SIZE

namespace BlockType

/-- Source `BlockType.AIR = 0` from blocks.ts. -/
def AIR : ℕ := 0

/-- Source `BlockType.GRASS = 1` from blocks.ts. -/
def GRASS : ℕ := 1

/-- Source `BlockType.DIRT = 2` from blocks.ts. -/
def DIRT : ℕ := 2

/-- Source `BlockType.STONE = 3` from blocks.ts. -/
def STONE : ℕ := 3

/-- Source `BlockType.BEDROCK = 4` from blocks.ts. -/
def BEDROCK : ℕ := 4

/-- Source `BlockType.SAND = 5` from blocks.ts. -/
def SAND : ℕ := 5

/-- Source `BlockType.WATER = 6` from blocks.ts. -/
def WATER : ℕ := 6

/-- Source `BlockType.GLOWSTONE = 7` from blocks.ts. -/
def GLOWSTONE : ℕ := 7

end BlockType

/-- Transparency flag of `BLOCK_CONFIG` in blocks.ts: exactly `AIR` and
`WATER` have `transparent: true`; every other block type is opaque. -/
def blockTransparent (b : ℕ) : Bool :=
  (b == BlockType.AIR) || (b == BlockType.WATER)

/-- A block is "solid-opaque" when it is neither air nor transparent:
the test `block !== BlockType.AIR && !BLOCK_CONFIG[block].transparent`
used by the meshing and lighting code. -/
def solidOpaque (b : ℕ) : Bool :=
  (b != BlockType.AIR) && !(blockTransparent b)

/-! ## Chunk.ts -/

/-- Source interface `ChunkPosition` from Chunk.ts (integer chunk coords). -/
structure ChunkPosition where
  x : ℤ
  y : ℤ
  z : ℤ
deriving DecidableEq, Repr

/-- Source class `Chunk` from Chunk.ts: a position plus a flat
`Uint8Array(CHUNK_SIZE³)` block buffer, embedded as a `List ℕ` of bytes.
The derived THREE.js mesh object is modelled separately by
`generateMeshFaces` (the mesh is a pure function of the buffer). -/
structure Chunk where
  position : ChunkPosition
  blocks : List ℕ
deriving DecidableEq, Repr

/-- Constructor of `Chunk`: a fresh zero-filled (all-air) buffer of
`CHUNK_SIZE³` bytes, as `new Uint8Array(n)` zero-initialises. -/
def emptyChunk (position : ChunkPosition) : Chunk :=
  ⟨position, List.replicate CHUNK_VOLUME 0⟩

/-- Source `Chunk.getBlock` (Chunk.ts lines 35–41): any coordinate outside
`[0, CHUNK_SIZE)` yields `BlockType.AIR`; otherwise the byte at flat index
`x + y*CHUNK_SIZE + z*CHUNK_SIZE²` is returned. -/
def Chunk.getBlock (c : Chunk) (x y z : ℤ) : ℕ :=
  if x < 0 ∨ x ≥ CHUNK_SIZE ∨ y < 0 ∨ y ≥ CHUNK_SIZE ∨ z < 0 ∨ z ≥ CHUNK_SIZE then
    BlockType.AIR
  else
    c.blocks.getD (x + y * CHUNK_SIZE + z * (CHUNK_SIZE * CHUNK_SIZE)).toNat 0

/-- Source `Chunk.setBlock` (Chunk.ts lines 46–52): out-of-range writes are
a no-op; in-range writes store the byte at the same flat index. -/
def Chunk.setBlock (c : Chunk) (x y z : ℤ) (t : ℕ) : Chunk :=
  if x < 0 ∨ x ≥ CHUNK_SIZE ∨ y < 0 ∨ y ≥ CHUNK_SIZE ∨ z < 0 ∨ z ≥ CHUNK_SIZE then
    c
  else
    ⟨c.position, c.blocks.set (x + y * CHUNK_SIZE + z * (CHUNK_SIZE * CHUNK_SIZE)).toNat t⟩

/-- C3. For every chunk state and integer triple (x,y,z): if any coordinate
lies outside [0,16) then `Chunk.getBlock` returns the air block type
(value 0), and for every in-range triple it returns the stored byte at
flat index x + y·16 + z·256. -/
theorem getBlock_boundary_contract (c : Chunk) (x y z : ℤ) :
    (¬ (0 ≤ x ∧ x < 16 ∧ 0 ≤ y ∧ y < 16 ∧ 0 ≤ z ∧ z < 16) →
      c.getBlock x y z = BlockType.AIR)
    ∧ ((0 ≤ x ∧ x < 16 ∧ 0 ≤ y ∧ y < 16 ∧ 0 ≤ z ∧ z < 16) →
      c.getBlock x y z = c.blocks.getD (x + y * 16 + z * 256).toNat 0) := by
  unfold Chunk.getBlock
  simp only [CHUNK_SIZE, Nat.cast_ofNat]
  constructor
  · intro h
    rw [if_pos]
    omega
  · intro h
    rw [if_neg]
    · norm_num
    · omega

/-- Witness for C3 at concrete inputs: the out-of-range read (17,0,0) on a
chunk holding stone everywhere returns air, and the in-range read (1,0,0)
returns the stored byte. -/
theorem getBlock_boundary_contract_witness :
    (Chunk.getBlock ⟨⟨0, 0, 0⟩, List.replicate 4096 3⟩ 17 0 0 = 0)
    ∧ (Chunk.getBlock ⟨⟨0, 0, 0⟩, List.replicate 4096 3⟩ 1 0 0 =
        (List.replicate 4096 3).getD (((1 : ℤ) + 0 * 16 + 0 * 256)).toNat 0) :=
  ⟨(getBlock_boundary_contract _ 17 0 0).1 (by decide),
   (getBlock_boundary_contract _ 1 0 0).2 (by decide)⟩

/-! ## Chunk.generateMesh (face emission)

`Chunk.generateMesh` (Chunk.ts lines 64–193) walks every cell in y,z,x
order, skips air cells, and for each of the six axis directions emits one
quad (4 vertices, 6 indices) exactly when `shouldRenderFace` holds at the
neighbouring cell.  The embedding records, in emission order, which
(cell, direction) pairs get a quad; vertex positions and colors are a
fixed function of that pair and the block type and carry no further
emission logic. -/

/-- Six face directions of `generateMesh`, in the order the source lists
them: front (+Z), back (−Z), right (+X), left (−X), top (+Y), bottom (−Y). -/
inductive FaceDir where
  | plusZ
  | minusZ
  | plusX
  | minusX
  | plusY
  | minusY
deriving DecidableEq, Repr

/-- Offset from a cell to the neighbour a given face looks at, exactly the
coordinates passed to `shouldRenderFace` in the source face table. -/
def faceOffset : FaceDir → ℤ × ℤ × ℤ
  | FaceDir.plusZ => (0, 0, 1)
  | FaceDir.minusZ => (0, 0, -1)
  | FaceDir.plusX => (1, 0, 0)
  | FaceDir.minusX => (-1, 0, 0)
  | FaceDir.plusY => (0, 1, 0)
  | FaceDir.minusY => (0, -1, 0)

/-- The direction list in source order. -/
def faceDirs : List FaceDir :=
  [FaceDir.plusZ, FaceDir.minusZ, FaceDir.plusX, FaceDir.minusX,
   FaceDir.plusY, FaceDir.minusY]

/-- Source `Chunk.shouldRenderFace` (Chunk.ts lines 198–201): render a face
when the adjacent block is air or flagged transparent. -/
def Chunk.shouldRenderFace (c : Chunk) (x y z : ℤ) : Bool :=
  (c.getBlock x y z == BlockType.AIR) || blockTransparent (c.getBlock x y z)

/-- Neighbour cell a face of cell (x,y,z) looks at. -/
def faceNeighbor (x y z : ℤ) (d : FaceDir) : ℤ × ℤ × ℤ :=
  (x + (faceOffset d).1, y + (faceOffset d).2.1, z + (faceOffset d).2.2)

/-- Face-emission part of `Chunk.generateMesh` (Chunk.ts lines 73–177):
iterate all cells in y,z,x order, skip air cells, and emit a quad for each
direction whose `shouldRenderFace` check passes, in source order. -/
def Chunk.generateMeshFaces (c : Chunk) : List (ℕ × ℕ × ℕ × FaceDir) :=
  (List.range CHUNK_SIZE).flatMap fun y =>
    (List.range CHUNK_SIZE).flatMap fun z =>
      (List.range CHUNK_SIZE).flatMap fun x =>
        if c.getBlock x y z = BlockType.AIR then []
        else
          (faceDirs.filter fun d =>
              let n := faceNeighbor x y z d
              c.shouldRenderFace n.1 n.2.1 n.2.2).map
            fun d => (x, y, z, d)

/-- Every direction is in the direction list. -/
theorem mem_faceDirs (d : FaceDir) : d ∈ faceDirs := by
  cases d <;> simp [faceDirs]

/-- Characterisation of face emission: a (cell, direction) pair is in the
emitted face list iff the cell is in range, holds a non-air block, and the
`shouldRenderFace` test passes at the neighbour. -/
theorem mem_generateMeshFaces_iff (c : Chunk) (x y z : ℕ) (d : FaceDir) :
    (x, y, z, d) ∈ c.generateMeshFaces ↔
      x < 16 ∧ y < 16 ∧ z < 16 ∧
      c.getBlock x y z ≠ BlockType.AIR ∧
      c.shouldRenderFace (faceNeighbor x y z d).1 (faceNeighbor x y z d).2.1
        (faceNeighbor x y z d).2.2 = true := by
  simp only [Chunk.generateMeshFaces, List.mem_flatMap, List.mem_range, CHUNK_SIZE]
  constructor
  · rintro ⟨y', hy', z', hz', x', hx', hmem⟩
    split at hmem
    · simp at hmem
    · simp only [List.mem_map, List.mem_filter] at hmem
      obtain ⟨d', ⟨_, hp⟩, heq⟩ := hmem
      cases heq
      exact ⟨hx', hy', hz', by assumption, hp⟩
  · rintro ⟨hx, hy, hz, hne, hp⟩
    refine ⟨y, hy, z, hz, x, hx, ?_⟩
    rw [if_neg hne]
    simp only [List.mem_map, List.mem_filter]
    exact ⟨d, ⟨mem_faceDirs d, hp⟩, rfl⟩

/-- Direction from the neighbour back to the original cell. -/
def oppositeDir : FaceDir → FaceDir
  | FaceDir.plusZ => FaceDir.minusZ
  | FaceDir.minusZ => FaceDir.plusZ
  | FaceDir.plusX => FaceDir.minusX
  | FaceDir.minusX => FaceDir.plusX
  | FaceDir.plusY => FaceDir.minusY
  | FaceDir.minusY => FaceDir.plusY

/-- The opposite direction has the negated offset. -/
theorem faceOffset_oppositeDir (d : FaceDir) :
    faceOffset (oppositeDir d) =
      (-(faceOffset d).1, -(faceOffset d).2.1, -(faceOffset d).2.2) := by
  cases d <;> rfl

/-- The `shouldRenderFace` test is exactly transparency of the adjacent
block (air is itself flagged transparent in `BLOCK_CONFIG`). -/
theorem shouldRenderFace_eq (c : Chunk) (x y z : ℤ) :
    c.shouldRenderFace x y z = blockTransparent (c.getBlock x y z) := by
  unfold Chunk.shouldRenderFace blockTransparent
  cases h : (c.getBlock x y z == BlockType.AIR) <;> simp [h]

/-- Concrete chunk refuting C4 as stated: a single water block at local
cell (0,0,0) of chunk (0,0,0), air everywhere else. -/
def waterChunk : Chunk :=
  ⟨⟨0, 0, 0⟩, (List.replicate CHUNK_VOLUME 0).set 0 BlockType.WATER⟩

/-- Counterexample to C4 as stated.  Cells A = (0,0,0) (water) and
B = (1,0,0) (air) are adjacent; neither is solid-opaque, so "exactly one
of {A solid-opaque, B solid-opaque}" is false, yet `generateMesh` emits a
quad between them (water is non-air, its neighbour is air). -/
theorem mesh_face_claim_counterexample :
    (xor (solidOpaque (waterChunk.getBlock 0 0 0))
        (solidOpaque (waterChunk.getBlock 1 0 0)) = false)
    ∧ (0, 0, 0, FaceDir.plusX) ∈ waterChunk.generateMeshFaces := by
  constructor
  · decide
  · exact (mem_generateMeshFaces_iff _ 0 0 0 _).mpr (by decide)

/-- C4 amended. For every chunk contents and every pair of in-range
adjacent cells A = (x,y,z) and B = (x',y',z') along direction d, the mesh
built by `generateMesh` contains a quad between A and B iff one of the two
cells holds a non-air block whose neighbouring cell (the other one) is air
or transparent.  In particular no face is emitted between two solid-opaque
cells, and none between two air cells; but a transparent non-air block
(water) does get faces against air or transparent neighbours. -/
theorem mesh_quad_amended (c : Chunk) (x y z x' y' z' : ℕ) (d : FaceDir)
    (hx : x < 16) (hy : y < 16) (hz : z < 16)
    (hx' : x' < 16) (hy' : y' < 16) (hz' : z' < 16)
    (hax : (x' : ℤ) = (x : ℤ) + (faceOffset d).1)
    (hay : (y' : ℤ) = (y : ℤ) + (faceOffset d).2.1)
    (haz : (z' : ℤ) = (z : ℤ) + (faceOffset d).2.2) :
    ((x, y, z, d) ∈ c.generateMeshFaces ∨
        (x', y', z', oppositeDir d) ∈ c.generateMeshFaces) ↔
      ((c.getBlock x y z ≠ BlockType.AIR ∧
          blockTransparent (c.getBlock x' y' z') = true) ∨
        (c.getBlock x' y' z' ≠ BlockType.AIR ∧
          blockTransparent (c.getBlock x y z) = true)) := by
  have hn1 : faceNeighbor x y z d = ((x' : ℤ), (y' : ℤ), (z' : ℤ)) := by
    simp only [faceNeighbor, Prod.mk.injEq]
    exact ⟨by omega, by omega, by omega⟩
  have hn2 : faceNeighbor x' y' z' (oppositeDir d) = ((x : ℤ), (y : ℤ), (z : ℤ)) := by
    simp only [faceNeighbor, faceOffset_oppositeDir, Prod.mk.injEq]
    exact ⟨by omega, by omega, by omega⟩
  rw [mem_generateMeshFaces_iff, mem_generateMeshFaces_iff]
  simp [hn1, hn2, shouldRenderFace_eq, hx, hy, hz, hx', hy', hz']

/-- Witness for the amended C4 at a concrete input: on `waterChunk`, the
quad between the water cell (0,0,0) and the air cell (1,0,0) exists. -/
theorem mesh_quad_amended_witness :
    (0, 0, 0, FaceDir.plusX) ∈ waterChunk.generateMeshFaces ∨
      (1, 0, 0, oppositeDir FaceDir.plusX) ∈ waterChunk.generateMeshFaces :=
  (mesh_quad_amended waterChunk 0 0 0 1 0 0 FaceDir.plusX
      (by decide) (by decide) (by decide) (by decide) (by decide) (by decide)
      (by decide) (by decide) (by decide)).mpr (by decide)

/-! ## SeededRandom.ts

JavaScript `|0` and `<<` operate on 32-bit two's-complement integers;
`toInt32` is that coercion.  JS `%` is truncated division, which on the
non-negative dividends produced here (the LCG seed is an absolute value)
agrees with Lean's `%` on `ℤ`. -/

/-- Coercion of an integer to JS 32-bit signed semantics (`| 0`). -/
def toInt32 (n : ℤ) : ℤ :=
  (n + 2 ^ 31) % 2 ^ 32 - 2 ^ 31

/-- One step `hash = ((hash << 5) - hash + v) | 0` of
`SeededRandom.fromCoordinates` (SeededRandom.ts lines 45–48):
`hash << 5` coerces to int32, shifts, and truncates to int32; the
subtraction and addition are exact in doubles and `| 0` truncates. -/
def hashStep (hash v : ℤ) : ℤ :=
  toInt32 (toInt32 (toInt32 hash * 32) - hash + v)

/-- Source class `SeededRandom`: a linear congruential generator state. -/
structure SeededRandom where
  seed : ℤ
deriving DecidableEq, Repr

/-- Source `SeededRandom.next` (SeededRandom.ts lines 15–23): advance the
LCG seed by `seed = (a*seed + c) % m` and return `seed / m`.  The mutation
of `this.seed` is modelled by returning the successor state. -/
def SeededRandom.next (r : SeededRandom) : ℚ × SeededRandom :=
  let a : ℤ := 1103515245
  let c : ℤ := 12345
  let m : ℤ := 2 ^ 31
  let s := (a * r.seed + c) % m
  ((s : ℚ) / (m : ℚ), ⟨s⟩)

/-- Source `SeededRandom.fromCoordinates` (SeededRandom.ts lines 43–50):
hash the three coordinates into the base seed and build a fresh generator
from the absolute value of the hash. -/
def SeededRandom.fromCoordinates (baseSeed x y z : ℤ) : SeededRandom :=
  ⟨|hashStep (hashStep (hashStep baseSeed x) y) z|⟩

/-! ## WorldGenerator.ts -/

/-- Source interface `WorldGenerationConfig`. -/
structure WorldGenerationConfig where
  seed : ℤ
  seaLevel : ℚ
  terrainScale : ℚ
  terrainHeight : ℚ
deriving DecidableEq, Repr

/-- Source `DEFAULT_WORLD_CONFIG`: seed 12345, sea level 5, terrain scale
0.05, terrain height 10. -/
def DEFAULT_WORLD_CONFIG : WorldGenerationConfig :=
  ⟨12345, 5, 1 / 20, 10⟩

/-- Source `WorldGenerator.getRandomValue` (WorldGenerator.ts lines 159–162):
a fresh coordinate-seeded generator is built per call and sampled once, so
the value is a pure function of (seed, x, y). -/
def getRandomValue (cfg : WorldGenerationConfig) (x y : ℤ) : ℚ :=
  ((SeededRandom.fromCoordinates cfg.seed x y 0).next).1

/-- Source `WorldGenerator.smoothstep`. -/
def smoothstep (t : ℚ) : ℚ :=
  t * t * (3 - 2 * t)

/-- Source `WorldGenerator.lerp`. -/
def lerp (a b t : ℚ) : ℚ :=
  a + (b - a) * t

/-- Source `WorldGenerator.noise2D` (WorldGenerator.ts lines 128–154):
value noise with cosine-style smoothstep interpolation between the four
seeded corner values, mapped to (−1, 1). -/
def noise2D (cfg : WorldGenerationConfig) (x y : ℚ) : ℚ :=
  let x0 : ℤ := ⌊x⌋
  let y0 : ℤ := ⌊y⌋
  let fx := x - (x0 : ℚ)
  let fy := y - (y0 : ℚ)
  let v00 := getRandomValue cfg x0 y0
  let v10 := getRandomValue cfg (x0 + 1) y0
  let v01 := getRandomValue cfg x0 (y0 + 1)
  let v11 := getRandomValue cfg (x0 + 1) (y0 + 1)
  let sx := smoothstep fx
  let sy := smoothstep fy
  let v0 := lerp v00 v10 sx
  let v1 := lerp v01 v11 sx
  let value := lerp v0 v1 sy
  value * 2 - 1

/-- Source `WorldGenerator.getTerrainHeight` (WorldGenerator.ts lines
109–122): three octaves of noise at increasing frequency and decreasing
amplitude, scaled by the height amplitude around the sea level, floored. -/
def getTerrainHeight (cfg : WorldGenerationConfig) (x z : ℤ) : ℤ :=
  let noise1 := noise2D cfg (x * cfg.terrainScale) (z * cfg.terrainScale)
  let noise2 := noise2D cfg (x * cfg.terrainScale * 2) (z * cfg.terrainScale * 2) * (1 / 2)
  let noise3 := noise2D cfg (x * cfg.terrainScale * 4) (z * cfg.terrainScale * 4) * (1 / 4)
  let combinedNoise := noise1 + noise2 + noise3
  ⌊cfg.seaLevel + combinedNoise * cfg.terrainHeight⌋

/-- Source `WorldGenerator.getBlockTypeAt` (WorldGenerator.ts lines 75–103). -/
def getBlockTypeAt (cfg : WorldGenerationConfig) (worldX worldY worldZ : ℤ) : ℕ :=
  if worldY = 0 then
    BlockType.BEDROCK
  else
    let terrainHeight := getTerrainHeight cfg worldX worldZ
    if worldY < terrainHeight - 3 then
      BlockType.STONE
    else if worldY < terrainHeight then
      BlockType.DIRT
    else if worldY = terrainHeight then
      if (terrainHeight : ℚ) ≤ cfg.seaLevel then BlockType.SAND else BlockType.GRASS
    else if (worldY : ℚ) ≤ cfg.seaLevel then
      BlockType.WATER
    else
      BlockType.AIR

/-- Innermost loop of `WorldGenerator.fillChunkWithTerrain`
(WorldGenerator.ts lines 52–70): for fixed localY, localZ, write every
localX cell with the block type at its world coordinates. -/
def fillX (cfg : WorldGenerationConfig) (localY localZ : ℕ) (c : Chunk) : Chunk :=
  (List.range CHUNK_SIZE).foldl
    (fun c3 (localX : ℕ) =>
      c3.setBlock localX localY localZ
        (getBlockTypeAt cfg
          (c3.position.x * CHUNK_SIZE + localX)
          (c3.position.y * CHUNK_SIZE + localY)
          (c3.position.z * CHUNK_SIZE + localZ)))
    c

/-- Middle loop of `fillChunkWithTerrain`: iterate localZ. -/
def fillZ (cfg : WorldGenerationConfig) (localY : ℕ) (c : Chunk) : Chunk :=
  (List.range CHUNK_SIZE).foldl (fun c2 localZ => fillX cfg localY localZ c2) c

/-- Source `WorldGenerator.fillChunkWithTerrain` (WorldGenerator.ts lines
52–70): write every cell of the chunk, looping localY, localZ, localX
(outermost to innermost). -/
def fillChunkWithTerrain (cfg : WorldGenerationConfig) (c : Chunk) : Chunk :=
  (List.range CHUNK_SIZE).foldl (fun c1 localY => fillZ cfg localY c1) c

/-- Source class `WorldGenerator`: its only instance state is the config
(`setSeed` is the only mutator; `generateChunk` reads the config and per
cell builds a fresh coordinate-seeded `SeededRandom`). -/
structure WorldGenerator where
  config : WorldGenerationConfig
deriving DecidableEq, Repr

/-- One call of `WorldGenerator.generateChunk` (WorldGenerator.ts lines
38–47, minus the `setTimeout` scheduling): construct an empty chunk, fill
it with terrain, and return it together with the (unchanged) generator
state. -/
def WorldGenerator.generateChunkCall (g : WorldGenerator) (position : ChunkPosition) :
    Chunk × WorldGenerator :=
  (fillChunkWithTerrain g.config (emptyChunk position), g)

/-! ### Correctness of the fill loops

The triple write loop visits each cell exactly once, so the generated
buffer holds `getBlockTypeAt` of the cell's world coordinates in every
cell. -/

/-- `setBlock` never changes the chunk position. -/
theorem Chunk.position_setBlock (c : Chunk) (x y z : ℤ) (t : ℕ) :
    (c.setBlock x y z t).position = c.position := by
  unfold Chunk.setBlock
  split <;> rfl

/-- `setBlock` never changes the buffer length. -/
theorem Chunk.length_setBlock (c : Chunk) (x y z : ℤ) (t : ℕ) :
    (c.setBlock x y z t).blocks.length = c.blocks.length := by
  unfold Chunk.setBlock
  split
  · rfl
  · simp

/-- The bounds test of `getBlock`/`setBlock` passes on in-range ℕ coords. -/
theorem chunk_inRange_cond (x y z : ℕ) (hx : x < 16) (hy : y < 16) (hz : z < 16) :
    ¬((x : ℤ) < 0 ∨ (x : ℤ) ≥ (CHUNK_SIZE : ℤ) ∨ (y : ℤ) < 0 ∨ (y : ℤ) ≥ (CHUNK_SIZE : ℤ) ∨
      (z : ℤ) < 0 ∨ (z : ℤ) ≥ (CHUNK_SIZE : ℤ)) := by
  simp only [CHUNK_SIZE, Nat.cast_ofNat]
  omega

/-- The flat index of in-range ℕ coords, as a natural number. -/
theorem chunkIndex_toNat (x y z : ℕ) :
    ((x : ℤ) + (y : ℤ) * (CHUNK_SIZE : ℤ) + (z : ℤ) * ((CHUNK_SIZE : ℤ) * (CHUNK_SIZE : ℤ))).toNat =
      x + y * 16 + z * 256 := by
  simp only [CHUNK_SIZE, Nat.cast_ofNat]
  omega

/-- `getBlock` at in-range ℕ coords reads the flat index. -/
theorem Chunk.getBlock_natCoords (c : Chunk) (x y z : ℕ)
    (hx : x < 16) (hy : y < 16) (hz : z < 16) :
    c.getBlock x y z = c.blocks.getD (x + y * 16 + z * 256) 0 := by
  unfold Chunk.getBlock
  rw [if_neg (chunk_inRange_cond x y z hx hy hz), chunkIndex_toNat]

/-- `setBlock` at in-range ℕ coords writes the flat index. -/
theorem Chunk.setBlock_natCoords (c : Chunk) (x y z : ℕ)
    (hx : x < 16) (hy : y < 16) (hz : z < 16) (t : ℕ) :
    c.setBlock x y z t = ⟨c.position, c.blocks.set (x + y * 16 + z * 256) t⟩ := by
  unfold Chunk.setBlock
  rw [if_neg (chunk_inRange_cond x y z hx hy hz), chunkIndex_toNat]

/-- Reading back the cell just written returns the written byte. -/
theorem Chunk.getBlock_setBlock_self (c : Chunk) (x y z : ℕ)
    (hx : x < 16) (hy : y < 16) (hz : z < 16) (hlen : c.blocks.length = 4096) (t : ℕ) :
    (c.setBlock x y z t).getBlock x y z = t := by
  rw [Chunk.setBlock_natCoords c x y z hx hy hz,
    Chunk.getBlock_natCoords _ x y z hx hy hz]
  show (c.blocks.set (x + y * 16 + z * 256) t).getD (x + y * 16 + z * 256) 0 = t
  rw [List.getD_eq_getElem?_getD, List.getElem?_set_eq (by rw [hlen]; omega)]
  rfl

/-- Writing one cell leaves every other in-range cell unchanged. -/
theorem Chunk.getBlock_setBlock_ne (c : Chunk) (x y z a b d : ℕ)
    (hx : x < 16) (hy : y < 16) (hz : z < 16)
    (ha : a < 16) (hb : b < 16) (hd : d < 16)
    (hne : ¬(x = a ∧ y = b ∧ z = d)) (t : ℕ) :
    (c.setBlock a b d t).getBlock x y z = c.getBlock x y z := by
  rw [Chunk.setBlock_natCoords c a b d ha hb hd,
    Chunk.getBlock_natCoords _ x y z hx hy hz,
    Chunk.getBlock_natCoords c x y z hx hy hz]
  show (c.blocks.set (a + b * 16 + d * 256) t).getD (x + y * 16 + z * 256) 0 =
    c.blocks.getD (x + y * 16 + z * 256) 0
  rw [List.getD_eq_getElem?_getD, List.getD_eq_getElem?_getD,
    List.getElem?_set_ne (by omega)]

/-- A fold of position-preserving steps preserves the position. -/
theorem foldl_position (f : Chunk → ℕ → Chunk)
    (hf : ∀ c a, (f c a).position = c.position) (l : List ℕ) (c : Chunk) :
    (l.foldl f c).position = c.position := by
  induction l generalizing c with
  | nil => rfl
  | cons a as ih => rw [List.foldl_cons, ih, hf]

/-- A fold of length-preserving steps preserves the buffer length. -/
theorem foldl_length (f : Chunk → ℕ → Chunk)
    (hf : ∀ c a, (f c a).blocks.length = c.blocks.length) (l : List ℕ) (c : Chunk) :
    (l.foldl f c).blocks.length = c.blocks.length := by
  induction l generalizing c with
  | nil => rfl
  | cons a as ih => rw [List.foldl_cons, ih, hf]

/-- The x-loop writes exactly the cells (lx, localY, localZ), lx in the
processed list, with their world block type, and touches nothing else. -/
theorem foldlX_getBlock (cfg : WorldGenerationConfig) (ly lz : ℕ) (xs : List ℕ)
    (c : Chunk) (x y z : ℕ)
    (hx : x < 16) (hy : y < 16) (hz : z < 16) (hly : ly < 16) (hlz : lz < 16)
    (hxs : ∀ a ∈ xs, a < 16) (hlen : c.blocks.length = 4096) :
    ((xs.foldl (fun c3 localX =>
        c3.setBlock localX ly lz
          (getBlockTypeAt cfg
            (c3.position.x * CHUNK_SIZE + localX)
            (c3.position.y * CHUNK_SIZE + ly)
            (c3.position.z * CHUNK_SIZE + lz))) c).getBlock x y z) =
      if x ∈ xs ∧ y = ly ∧ z = lz then
        getBlockTypeAt cfg (c.position.x * CHUNK_SIZE + x) (c.position.y * CHUNK_SIZE + y)
          (c.position.z * CHUNK_SIZE + z)
      else c.getBlock x y z := by
  induction xs generalizing c with
  | nil => simp
  | cons a as ih =>
    have ha : a < 16 := hxs a (List.mem_cons_self a as)
    have has : ∀ b ∈ as, b < 16 := fun b hb => hxs b (List.mem_cons_of_mem a hb)
    rw [List.foldl_cons,
      ih _ has (by rw [Chunk.length_setBlock, hlen])]
    simp only [Chunk.position_setBlock]
    by_cases h1 : x ∈ as ∧ y = ly ∧ z = lz
    · rw [if_pos h1, if_pos ⟨List.mem_cons_of_mem a h1.1, h1.2⟩]
    · rw [if_neg h1]
      by_cases h2 : x = a ∧ y = ly ∧ z = lz
      · obtain ⟨rfl, rfl, rfl⟩ := h2
        rw [Chunk.getBlock_setBlock_self c x y z hx hy hz hlen,
          if_pos ⟨List.mem_cons_self x as, rfl, rfl⟩]
      · rw [Chunk.getBlock_setBlock_ne c x y z a ly lz hx hy hz ha hly hlz h2]
        rw [if_neg]
        intro hcon
        rcases List.mem_cons.mp hcon.1 with hxa | hxas
        · exact h2 ⟨hxa, hcon.2⟩
        · exact h1 ⟨hxas, hcon.2⟩

/-- `fillX` preserves the chunk position. -/
theorem fillX_position (cfg : WorldGenerationConfig) (ly lz : ℕ) (c : Chunk) :
    (fillX cfg ly lz c).position = c.position := by
  unfold fillX
  exact foldl_position _ (fun c3 a => Chunk.position_setBlock c3 a ly lz _) _ c

/-- `fillX` preserves the buffer length. -/
theorem fillX_length (cfg : WorldGenerationConfig) (ly lz : ℕ) (c : Chunk) :
    (fillX cfg ly lz c).blocks.length = c.blocks.length := by
  unfold fillX
  exact foldl_length _ (fun c3 a => Chunk.length_setBlock c3 a ly lz _) _ c

/-- The z-loop writes exactly the plane (·, localY, lz), lz in the
processed list. -/
theorem foldlZ_getBlock (cfg : WorldGenerationConfig) (ly : ℕ) (zs : List ℕ)
    (c : Chunk) (x y z : ℕ)
    (hx : x < 16) (hy : y < 16) (hz : z < 16) (hly : ly < 16)
    (hzs : ∀ a ∈ zs, a < 16) (hlen : c.blocks.length = 4096) :
    ((zs.foldl (fun c2 localZ => fillX cfg ly localZ c2) c).getBlock x y z) =
      if y = ly ∧ z ∈ zs then
        getBlockTypeAt cfg (c.position.x * CHUNK_SIZE + x) (c.position.y * CHUNK_SIZE + y)
          (c.position.z * CHUNK_SIZE + z)
      else c.getBlock x y z := by
  induction zs generalizing c with
  | nil => simp
  | cons a as ih =>
    have ha : a < 16 := hzs a (List.mem_cons_self a as)
    have has : ∀ b ∈ as, b < 16 := fun b hb => hzs b (List.mem_cons_of_mem a hb)
    rw [List.foldl_cons, ih _ has (by rw [fillX_length, hlen])]
    simp only [fillX_position]
    have hinner : (fillX cfg ly a c).getBlock x y z =
        if y = ly ∧ z = a then
          getBlockTypeAt cfg (c.position.x * CHUNK_SIZE + x) (c.position.y * CHUNK_SIZE + y)
            (c.position.z * CHUNK_SIZE + z)
        else c.getBlock x y z := by
      unfold fillX
      rw [foldlX_getBlock cfg ly a (List.range CHUNK_SIZE) c x y z hx hy hz hly ha
        (fun b hb => by simpa [CHUNK_SIZE] using List.mem_range.mp hb) hlen]
      have hmem : x ∈ List.range CHUNK_SIZE := List.mem_range.mpr (by simpa [CHUNK_SIZE] using hx)
      by_cases h : y = ly ∧ z = a
      · rw [if_pos ⟨hmem, h⟩, if_pos h]
      · rw [if_neg (fun hcon => h hcon.2), if_neg h]
    by_cases h1 : y = ly ∧ z ∈ as
    · rw [if_pos h1, if_pos ⟨h1.1, List.mem_cons_of_mem a h1.2⟩]
    · rw [if_neg h1, hinner]
      by_cases h2 : y = ly ∧ z = a
      · rw [if_pos h2, if_pos ⟨h2.1, List.mem_cons.mpr (Or.inl h2.2)⟩]
      · rw [if_neg h2, if_neg]
        intro hcon
        rcases List.mem_cons.mp hcon.2 with hza | hzas
        · exact h2 ⟨hcon.1, hza⟩
        · exact h1 ⟨hcon.1, hzas⟩

/-- `fillZ` preserves the chunk position. -/
theorem fillZ_position (cfg : WorldGenerationConfig) (ly : ℕ) (c : Chunk) :
    (fillZ cfg ly c).position = c.position := by
  unfold fillZ
  exact foldl_position _ (fun c2 a => fillX_position cfg ly a c2) _ c

/-- `fillZ` preserves the buffer length. -/
theorem fillZ_length (cfg : WorldGenerationConfig) (ly : ℕ) (c : Chunk) :
    (fillZ cfg ly c).blocks.length = c.blocks.length := by
  unfold fillZ
  exact foldl_length _ (fun c2 a => fillX_length cfg ly a c2) _ c

/-- The y-loop writes exactly the layers localY in the processed list. -/
theorem foldlY_getBlock (cfg : WorldGenerationConfig) (ys : List ℕ)
    (c : Chunk) (x y z : ℕ)
    (hx : x < 16) (hy : y < 16) (hz : z < 16)
    (hys : ∀ a ∈ ys, a < 16) (hlen : c.blocks.length = 4096) :
    ((ys.foldl (fun c1 localY => fillZ cfg localY c1) c).getBlock x y z) =
      if y ∈ ys then
        getBlockTypeAt cfg (c.position.x * CHUNK_SIZE + x) (c.position.y * CHUNK_SIZE + y)
          (c.position.z * CHUNK_SIZE + z)
      else c.getBlock x y z := by
  induction ys generalizing c with
  | nil => simp
  | cons a as ih =>
    have ha : a < 16 := hys a (List.mem_cons_self a as)
    have has : ∀ b ∈ as, b < 16 := fun b hb => hys b (List.mem_cons_of_mem a hb)
    rw [List.foldl_cons, ih _ has (by rw [fillZ_length, hlen])]
    simp only [fillZ_position]
    have hinner : (fillZ cfg a c).getBlock x y z =
        if y = a then
          getBlockTypeAt cfg (c.position.x * CHUNK_SIZE + x) (c.position.y * CHUNK_SIZE + y)
            (c.position.z * CHUNK_SIZE + z)
        else c.getBlock x y z := by
      unfold fillZ
      rw [foldlZ_getBlock cfg a (List.range CHUNK_SIZE) c x y z hx hy hz ha
        (fun b hb => by simpa [CHUNK_SIZE] using List.mem_range.mp hb) hlen]
      have hmem : z ∈ List.range CHUNK_SIZE := List.mem_range.mpr (by simpa [CHUNK_SIZE] using hz)
      by_cases h : y = a
      · rw [if_pos ⟨h, hmem⟩, if_pos h]
      · rw [if_neg (fun hcon => h hcon.1), if_neg h]
    by_cases h1 : y ∈ as
    · rw [if_pos h1, if_pos (List.mem_cons_of_mem a h1)]
    · rw [if_neg h1, hinner]
      by_cases h2 : y = a
      · rw [if_pos h2, if_pos (List.mem_cons.mpr (Or.inl h2))]
      · rw [if_neg h2, if_neg]
        intro hcon
        rcases List.mem_cons.mp hcon with hya | hyas
        · exact h2 hya
        · exact h1 hyas

/-- Every in-range cell of a generated chunk holds exactly the block type
`getBlockTypeAt` assigns to its world coordinates. -/
theorem generateChunk_getBlock (g : WorldGenerator) (pos : ChunkPosition)
    (x y z : ℕ) (hx : x < 16) (hy : y < 16) (hz : z < 16) :
    ((g.generateChunkCall pos).1).getBlock x y z =
      getBlockTypeAt g.config (pos.x * CHUNK_SIZE + x) (pos.y * CHUNK_SIZE + y)
        (pos.z * CHUNK_SIZE + z) := by
  show (fillChunkWithTerrain g.config (emptyChunk pos)).getBlock x y z = _
  unfold fillChunkWithTerrain
  have hlen : (emptyChunk pos).blocks.length = 4096 := by
    show (List.replicate CHUNK_VOLUME 0).length = 4096
    rw [List.length_replicate]
    decide
  rw [foldlY_getBlock g.config (List.range CHUNK_SIZE) (emptyChunk pos) x y z hx hy hz
    (fun b hb => by simpa [CHUNK_SIZE] using List.mem_range.mp hb) hlen]
  rw [if_pos (List.mem_range.mpr (by simpa [CHUNK_SIZE] using hy))]
  rfl

/-- A sequence of prior `generateChunk` calls, threading the generator
state call by call (this is the state a dispatch order or a worker's
backlog leaves behind). -/
def runGenerator (g : WorldGenerator) (ps : List ChunkPosition) : WorldGenerator :=
  ps.foldl (fun g1 p => (g1.generateChunkCall p).2) g

/-- Generation leaves the generator state untouched. -/
theorem runGenerator_eq (g : WorldGenerator) (ps : List ChunkPosition) :
    runGenerator g ps = g := by
  induction ps generalizing g with
  | nil => rfl
  | cons q qs ih => exact ih g

/-- C1. For every fixed world-generation config and chunk position, two
`generateChunk` calls — on any two generator instances sharing that
config, after any two histories of prior generations — produce chunks
with byte-identical 16×16×16 block buffers: the result depends only on
the config (seed included) and the position. -/
theorem generateChunk_deterministic (g1 g2 : WorldGenerator)
    (hcfg : g1.config = g2.config)
    (prior1 prior2 : List ChunkPosition) (p : ChunkPosition) :
    ((runGenerator g1 prior1).generateChunkCall p).1.blocks =
      ((runGenerator g2 prior2).generateChunkCall p).1.blocks := by
  rw [runGenerator_eq, runGenerator_eq]
  show (fillChunkWithTerrain g1.config (emptyChunk p)).blocks = _
  rw [hcfg]
  rfl

/-- Witness for C1: two generators with the default config, one fresh and
one that already generated two other chunks, agree byte-for-byte on chunk
(0,0,0). -/
theorem generateChunk_deterministic_witness :
    ((runGenerator ⟨DEFAULT_WORLD_CONFIG⟩ []).generateChunkCall ⟨0, 0, 0⟩).1.blocks =
      ((runGenerator ⟨DEFAULT_WORLD_CONFIG⟩ [⟨1, 2, 3⟩, ⟨-4, 0, 7⟩]).generateChunkCall
          ⟨0, 0, 0⟩).1.blocks :=
  generateChunk_deterministic ⟨DEFAULT_WORLD_CONFIG⟩ ⟨DEFAULT_WORLD_CONFIG⟩ rfl
    [] [⟨1, 2, 3⟩, ⟨-4, 0, 7⟩] ⟨0, 0, 0⟩

/-- C2. Stratification of generated blocks.  Every in-range cell of a
generated chunk holds `getBlockTypeAt` of its world coordinates, and that
function satisfies: at world y = 0 every column gets bedrock; for y ≠ 0,
with h the generator's terrain height at (x,z): stone strictly below h−3,
dirt from h−3 up to (excluding) h, grass at y = h when h is above sea
level, sand at y = h when h is at or below sea level, water for
h < y ≤ sea level, and air when y is above both h and sea level. -/
theorem generated_block_stratification (cfg : WorldGenerationConfig) :
    (∀ (pos : ChunkPosition) (lx ly lz : ℕ), lx < 16 → ly < 16 → lz < 16 →
      ((WorldGenerator.mk cfg).generateChunkCall pos).1.getBlock lx ly lz =
        getBlockTypeAt cfg (pos.x * CHUNK_SIZE + lx) (pos.y * CHUNK_SIZE + ly)
          (pos.z * CHUNK_SIZE + lz))
    ∧ (∀ x z : ℤ, getBlockTypeAt cfg x 0 z = BlockType.BEDROCK)
    ∧ (∀ x y z : ℤ, y ≠ 0 →
        (y < getTerrainHeight cfg x z - 3 →
          getBlockTypeAt cfg x y z = BlockType.STONE)
        ∧ (getTerrainHeight cfg x z - 3 ≤ y → y < getTerrainHeight cfg x z →
          getBlockTypeAt cfg x y z = BlockType.DIRT)
        ∧ (y = getTerrainHeight cfg x z →
            cfg.seaLevel < (getTerrainHeight cfg x z : ℚ) →
          getBlockTypeAt cfg x y z = BlockType.GRASS)
        ∧ (y = getTerrainHeight cfg x z →
            (getTerrainHeight cfg x z : ℚ) ≤ cfg.seaLevel →
          getBlockTypeAt cfg x y z = BlockType.SAND)
        ∧ (getTerrainHeight cfg x z < y → (y : ℚ) ≤ cfg.seaLevel →
          getBlockTypeAt cfg x y z = BlockType.WATER)
        ∧ (getTerrainHeight cfg x z < y → cfg.seaLevel < (y : ℚ) →
          getBlockTypeAt cfg x y z = BlockType.AIR)) := by
  refine ⟨fun pos lx ly lz h1 h2 h3 => generateChunk_getBlock ⟨cfg⟩ pos lx ly lz h1 h2 h3,
    ?_, ?_⟩
  · intro x z
    simp [getBlockTypeAt]
  · intro x y z hy
    refine ⟨fun h1 => ?_, fun h1 h2 => ?_, fun h1 h2 => ?_, fun h1 h2 => ?_,
      fun h1 h2 => ?_, fun h1 h2 => ?_⟩ <;>
      · simp only [getBlockTypeAt]
        rw [if_neg hy]
        split_ifs <;> first | rfl | omega | linarith

/-- Witness for C2 at concrete inputs.  With the default config the
terrain height at (0,0) is 5 = sea level, giving stone at y=1, dirt at
y=3, sand at y=5 and air at y=7; with sea level 4.5 the same column gets
grass at its surface y = 5; with a negative height amplitude the surface
drops to −4 and y=1 is water. -/
theorem generated_block_stratification_witness :
    ((WorldGenerator.mk DEFAULT_WORLD_CONFIG).generateChunkCall ⟨0, 0, 0⟩).1.getBlock 1 2 3 =
      getBlockTypeAt DEFAULT_WORLD_CONFIG (0 * CHUNK_SIZE + 1) (0 * CHUNK_SIZE + 2)
        (0 * CHUNK_SIZE + 3)
    ∧ getBlockTypeAt DEFAULT_WORLD_CONFIG 7 0 9 = BlockType.BEDROCK
    ∧ getBlockTypeAt DEFAULT_WORLD_CONFIG 0 1 0 = BlockType.STONE
    ∧ getBlockTypeAt DEFAULT_WORLD_CONFIG 0 3 0 = BlockType.DIRT
    ∧ getBlockTypeAt ⟨12345, 9 / 2, 1 / 20, 10⟩ 0 5 0 = BlockType.GRASS
    ∧ getBlockTypeAt DEFAULT_WORLD_CONFIG 0 5 0 = BlockType.SAND
    ∧ getBlockTypeAt ⟨12345, 5, 1 / 20, -100⟩ 0 1 0 = BlockType.WATER
    ∧ getBlockTypeAt DEFAULT_WORLD_CONFIG 0 7 0 = BlockType.AIR := by
  have e1 : getTerrainHeight DEFAULT_WORLD_CONFIG 0 0 = 5 := by
    simp only [getTerrainHeight, noise2D, getRandomValue, SeededRandom.fromCoordinates,
      SeededRandom.next, hashStep, toInt32, smoothstep, lerp, DEFAULT_WORLD_CONFIG]
    norm_num
  have e2 : getTerrainHeight ⟨12345, 9 / 2, 1 / 20, 10⟩ 0 0 = 5 := by
    simp only [getTerrainHeight, noise2D, getRandomValue, SeededRandom.fromCoordinates,
      SeededRandom.next, hashStep, toInt32, smoothstep, lerp]
    norm_num
  have e3 : getTerrainHeight ⟨12345, 5, 1 / 20, -100⟩ 0 0 = -4 := by
    simp only [getTerrainHeight, noise2D, getRandomValue, SeededRandom.fromCoordinates,
      SeededRandom.next, hashStep, toInt32, smoothstep, lerp]
    norm_num
  refine ⟨(generated_block_stratification DEFAULT_WORLD_CONFIG).1 ⟨0, 0, 0⟩ 1 2 3
      (by decide) (by decide) (by decide),
    (generated_block_stratification DEFAULT_WORLD_CONFIG).2.1 7 9,
    ((generated_block_stratification DEFAULT_WORLD_CONFIG).2.2 0 1 0
      (by decide)).1 (by rw [e1]; norm_num),
    ((generated_block_stratification DEFAULT_WORLD_CONFIG).2.2 0 3 0
      (by decide)).2.1 (by rw [e1]; norm_num) (by rw [e1]; norm_num),
    ((generated_block_stratification ⟨12345, 9 / 2, 1 / 20, 10⟩).2.2 0 5 0
      (by decide)).2.2.1 (by rw [e2]) (by rw [e2]; norm_num),
    ((generated_block_stratification DEFAULT_WORLD_CONFIG).2.2 0 5 0
      (by decide)).2.2.2.1 (by rw [e1]) (by rw [e1]; simp [DEFAULT_WORLD_CONFIG]),
    ((generated_block_stratification ⟨12345, 5, 1 / 20, -100⟩).2.2 0 1 0
      (by decide)).2.2.2.2.1 (by rw [e3]; norm_num) (by norm_num),
    ((generated_block_stratification DEFAULT_WORLD_CONFIG).2.2 0 7 0
      (by decide)).2.2.2.2.2 (by rw [e1]; norm_num)
      (by simp [DEFAULT_WORLD_CONFIG]; norm_num)⟩

/-! ## LightingSystem (src/unnamed/part_001)

`Math.sqrt` appears only under `Math.floor`, under `Math.ceil` after
doubling, or compared against a bound; each use is embedded exactly on the
squared distance: for `q ≥ 0` and `n : ℕ`, `n ≤ √q ↔ n² ≤ q ↔ n² ≤ ⌊q⌋`
and `n ≥ √q ↔ n² ≥ q ↔ n² ≥ ⌈q⌉`, so `⌊√q⌋ = Nat.sqrt ⌊q⌋` and
`⌈√q⌉ = ceilSqrtNat ⌈q⌉`.  JS `Math.round x = ⌊x + 1/2⌋`, which is
Mathlib's `round`. -/

/-- Floor of the square root of a non-negative rational: `Math.floor` of
`Math.sqrt` on the squared quantity. -/
def floorSqrtQ (q : ℚ) : ℕ :=
  Nat.sqrt (Int.toNat ⌊q⌋)

/-- Ceiling square root on naturals: the least n with n² ≥ m. -/
def ceilSqrtNat (m : ℕ) : ℕ :=
  if Nat.sqrt m * Nat.sqrt m = m then Nat.sqrt m else Nat.sqrt m + 1

/-- Value `Math.ceil (2 * Math.sqrt q)` computed exactly on the squared
distance q: `2·√q = √(4q)` and `⌈√(4q)⌉ = ceilSqrtNat ⌈4q⌉`. -/
def ceilTwiceSqrtQ (q : ℚ) : ℕ :=
  ceilSqrtNat (Int.toNat ⌈4 * q⌉)

/-- JS `Math.round` (round half-up): `Math.round x = ⌊x + 1/2⌋`, which is
exactly Mathlib's `round` on ℚ. -/
def jsRound (q : ℚ) : ℤ :=
  round q

/-- The embedded floor-sqrt is the floor of the real square root: its
square is at most q and the next square exceeds q. -/
theorem floorSqrtQ_spec (q : ℚ) (hq : 0 ≤ q) :
    ((floorSqrtQ q : ℚ)) ^ 2 ≤ q ∧ q < ((floorSqrtQ q : ℚ) + 1) ^ 2 := by
  unfold floorSqrtQ
  have hfl : (0 : ℤ) ≤ ⌊q⌋ := Int.floor_nonneg.mpr hq
  have htn : ((⌊q⌋.toNat : ℤ)) = ⌊q⌋ := Int.toNat_of_nonneg hfl
  have h1 : Nat.sqrt ⌊q⌋.toNat ^ 2 ≤ ⌊q⌋.toNat := Nat.sqrt_le' _
  have h2 : ⌊q⌋.toNat < (Nat.sqrt ⌊q⌋.toNat + 1) ^ 2 := Nat.lt_succ_sqrt' _
  have hle : ((⌊q⌋.toNat : ℚ)) ≤ q := by
    rw [show ((⌊q⌋.toNat : ℚ)) = ((⌊q⌋.toNat : ℤ) : ℚ) by push_cast; ring, htn]
    exact Int.floor_le q
  have hlt : q < ((⌊q⌋.toNat : ℚ)) + 1 := by
    rw [show ((⌊q⌋.toNat : ℚ)) = ((⌊q⌋.toNat : ℤ) : ℚ) by push_cast; ring, htn]
    exact Int.lt_floor_add_one q
  constructor
  · have : ((Nat.sqrt ⌊q⌋.toNat ^ 2 : ℕ) : ℚ) ≤ ((⌊q⌋.toNat : ℕ) : ℚ) := by
      exact_mod_cast h1
    push_cast at this ⊢
    nlinarith
  · have : ((⌊q⌋.toNat : ℕ) : ℚ) + 1 ≤
        ((((Nat.sqrt ⌊q⌋.toNat + 1) ^ 2 : ℕ)) : ℚ) := by
      exact_mod_cast h2
    push_cast at this ⊢
    nlinarith

/-- Monotonicity of the floored square root in the squared distance. -/
theorem floorSqrtQ_mono {q1 q2 : ℚ} (h : q1 ≤ q2) : floorSqrtQ q1 ≤ floorSqrtQ q2 :=
  Nat.sqrt_le_sqrt (Int.toNat_le_toNat (Int.floor_le_floor h))

/-- Squared Euclidean distance, as summed in
`LightingSystem.calculateLightLevel` (part_001 lines 176–180). -/
def distSq (x1 y1 z1 x2 y2 z2 : ℚ) : ℚ :=
  (x1 - x2) ^ 2 + (y1 - y2) ^ 2 + (z1 - z2) ^ 2

/-- Source interface `LightSource` (part_001): id, position, intensity
0–15.  The `type` and optional `color` fields play no role in
`calculateLightLevel` and are omitted. -/
structure LightSource where
  id : String
  position : ℚ × ℚ × ℚ
  intensity : ℚ
deriving DecidableEq, Repr

/-- Source interface `LightingConfig` (part_001 lines 29–34). -/
structure LightingConfig where
  enableSunlight : Bool
  enableDynamicShadows : Bool
  sunIntensity : ℚ
  timeOfDay : ℚ
deriving DecidableEq, Repr

/-- Defaults of the `LightingSystem` constructor: sunlight and dynamic
shadows on, sun intensity 15, time of day 6000 (midday). -/
def DEFAULT_LIGHTING_CONFIG : LightingConfig :=
  ⟨true, true, 15, 6000⟩

/-- Source `LightingSystem.isPathBlocked` (part_001 lines 249–276): march
`steps = ⌈2·distance⌉` samples from just after the start point to just
before the end point and report whether any lands on a solid,
non-transparent block; paths shorter than 1 are never blocked. -/
def isPathBlocked (x1 y1 z1 x2 y2 z2 : ℚ) (getBlockAt : ℤ → ℤ → ℤ → ℕ) : Bool :=
  let dx := x2 - x1
  let dy := y2 - y1
  let dz := z2 - z1
  let dsq := dx * dx + dy * dy + dz * dz
  if dsq < 1 then false
  else
    let steps := ceilTwiceSqrtQ dsq
    ((List.range steps).drop 1).any fun i =>
      let t : ℚ := (i : ℚ) / (steps : ℚ)
      solidOpaque (getBlockAt (jsRound (x1 + dx * t)) (jsRound (y1 + dy * t))
        (jsRound (z1 + dz * t)))

/-- Per-source body of the loop in `calculateLightLevel` (part_001 lines
175–193): the raw level is `max 0 (intensity − ⌊distance⌋)`, and the
source raises `maxLight` by that amount exactly when the raw level is
positive and the path to the source is not blocked — so an occluded or
out-of-range source contributes 0. -/
def pointContribution (wx wy wz : ℚ) (source : LightSource)
    (getBlockAt : ℤ → ℤ → ℤ → ℕ) : ℚ :=
  let dsq := distSq wx wy wz source.position.1 source.position.2.1 source.position.2.2
  let lightLevel := max 0 (source.intensity - (floorSqrtQ dsq : ℚ))
  if 0 < lightLevel ∧
      isPathBlocked wx wy wz source.position.1 source.position.2.1 source.position.2.2
        getBlockAt = false then
    lightLevel
  else 0

/-- C5. The raw point-source contribution `max 0 (intensity − ⌊distance⌋)`
never increases as the (squared, equivalently plain) Euclidean distance to
the source increases, intensity held fixed; and whenever the occlusion
check reports the path blocked, the source's contribution is exactly 0
regardless of distance. -/
theorem point_light_falloff_occlusion :
    (∀ (intensity x1 y1 z1 x2 y2 z2 sx sy sz : ℚ),
      distSq x1 y1 z1 sx sy sz ≤ distSq x2 y2 z2 sx sy sz →
      max 0 (intensity - (floorSqrtQ (distSq x2 y2 z2 sx sy sz) : ℚ)) ≤
        max 0 (intensity - (floorSqrtQ (distSq x1 y1 z1 sx sy sz) : ℚ)))
    ∧ (∀ (wx wy wz : ℚ) (s : LightSource) (gba : ℤ → ℤ → ℤ → ℕ),
      isPathBlocked wx wy wz s.position.1 s.position.2.1 s.position.2.2 gba = true →
      pointContribution wx wy wz s gba = 0) := by
  constructor
  · intro intensity x1 y1 z1 x2 y2 z2 sx sy sz h
    have hm : (floorSqrtQ (distSq x1 y1 z1 sx sy sz) : ℚ) ≤
        (floorSqrtQ (distSq x2 y2 z2 sx sy sz) : ℚ) := by
      exact_mod_cast floorSqrtQ_mono h
    exact max_le_max le_rfl (by linarith)
  · intro wx wy wz s gba hblocked
    unfold pointContribution
    rw [if_neg]
    simp [hblocked]

/-- Evaluation helper: the path from (0,0,0) to its all-stone surroundings
at (1,0,0) is blocked (distance 1, two steps, the middle sample rounds to
a stone cell). -/
theorem isPathBlocked_allStone_eval :
    isPathBlocked 0 0 0 1 0 0 (fun _ _ _ => BlockType.STONE) = true := by
  have hst : ceilTwiceSqrtQ (((1 : ℚ) - 0) * (1 - 0) + (0 - 0) * (0 - 0) + (0 - 0) * (0 - 0)) = 2 := by
    have h4 : ⌈(4 : ℚ) * (((1 : ℚ) - 0) * (1 - 0) + (0 - 0) * (0 - 0) + (0 - 0) * (0 - 0))⌉ = 4 := by
      norm_num
    unfold ceilTwiceSqrtQ
    rw [h4]
    have hs : Nat.sqrt 4 = 2 := by rw [show (4 : ℕ) = 2 * 2 from rfl, Nat.sqrt_eq]
    unfold ceilSqrtNat
    rw [show Int.toNat 4 = 4 from rfl, hs]
    norm_num
  simp only [isPathBlocked, hst]
  rw [if_neg (by norm_num)]
  rw [show (List.range 2).drop 1 = [1] from rfl]
  simp [solidOpaque, blockTransparent, BlockType.STONE, BlockType.AIR, BlockType.WATER]

/-- Witness for C5 at concrete inputs: with intensity 15 and a source at
the origin, the sample at distance 3 receives no more than the sample at
distance 1; and a torch one block away behind all-stone terrain
contributes exactly 0. -/
theorem point_light_falloff_occlusion_witness :
    (max 0 (15 - (floorSqrtQ (distSq 3 0 0 0 0 0) : ℚ)) ≤
      max 0 (15 - (floorSqrtQ (distSq 1 0 0 0 0 0) : ℚ)))
    ∧ pointContribution 0 0 0 ⟨"torch", (1, 0, 0), 15⟩ (fun _ _ _ => BlockType.STONE) = 0 :=
  ⟨(point_light_falloff_occlusion.1 15 1 0 0 3 0 0 0 0 0 (by norm_num [distSq])),
   point_light_falloff_occlusion.2 0 0 0 ⟨"torch", (1, 0, 0), 15⟩ _
     isPathBlocked_allStone_eval⟩

/-- Source `LightingSystem.lightLevelToBrightness` (part_001 lines
281–285): `Math.pow(0.8, (15 - lightLevel) / 15)`, embedded as the real
power function. -/
noncomputable def lightLevelToBrightness (lightLevel : ℝ) : ℝ :=
  (0.8 : ℝ) ^ ((15 - lightLevel) / 15)

/-- C6. The light-level-to-brightness conversion is non-decreasing in the
light level, maps level 15 to exactly 1, and on [0,15] stays within
(0, 1] — a positive floor, never true black (positivity in fact holds for
every level). -/
theorem brightness_monotone_bounds :
    (∀ L1 L2 : ℝ, L1 ≤ L2 → lightLevelToBrightness L1 ≤ lightLevelToBrightness L2)
    ∧ lightLevelToBrightness 15 = 1
    ∧ (∀ L : ℝ, 0 ≤ L → L ≤ 15 →
        0 < lightLevelToBrightness L ∧ lightLevelToBrightness L ≤ 1) := by
  have h08 : (0 : ℝ) < 0.8 := by norm_num
  refine ⟨?_, ?_, ?_⟩
  · intro L1 L2 hL
    exact Real.rpow_le_rpow_of_exponent_ge h08 (by norm_num) (by linarith)
  · unfold lightLevelToBrightness
    norm_num
  · intro L _ hL15
    exact ⟨Real.rpow_pos_of_pos h08 _,
      Real.rpow_le_one (le_of_lt h08) (by norm_num) (by linarith)⟩

/-- Witness for C6 at concrete inputs: brightness does not decrease from
level 3 to level 7, and brightness of level 4 lies in (0, 1]. -/
theorem brightness_monotone_bounds_witness :
    lightLevelToBrightness 3 ≤ lightLevelToBrightness 7
    ∧ (0 < lightLevelToBrightness 4 ∧ lightLevelToBrightness 4 ≤ 1) :=
  ⟨brightness_monotone_bounds.1 3 7 (by norm_num),
   brightness_monotone_bounds.2.2 4 (by norm_num) (by norm_num)⟩

/-! ## LightingSystem.calculateSunlight (part_001 lines 201–244)

The sun direction is `(cos sunAngle, sin sunAngle, 0)` with
`sunAngle = timeOfDay/24000 · 2π`; since cosine and sine are
transcendental the direction is passed as an abstract parameter
(sunDirX, sunDirY).  At the times the theorems below use, the direction
is exact: noon 6000 ↦ (0, 1), midnight 18000 ↦ (0, −1). -/

/-- Predicate of one raycast step of `calculateSunlight`: step i (of 20,
up to distance 50) lands on a solid, non-transparent block. -/
def sunRayHit (wx wy wz sunDirX sunDirY : ℚ) (getBlockAt : ℤ → ℤ → ℤ → ℕ)
    (i : ℕ) : Bool :=
  let maxDistance : ℚ := 50
  let steps : ℕ := 20
  let t := (i : ℚ) / (steps : ℚ) * maxDistance
  solidOpaque (getBlockAt (jsRound (wx + sunDirX * t)) (jsRound (wy + sunDirY * t))
    (jsRound (wz + 0 * t)))

/-- Source `LightingSystem.calculateSunlight` (part_001 lines 201–244):
full intensity when dynamic shadows are off; the fixed floor 2 when the
time of day is in the night window; otherwise march 20 ray steps toward
the sun and, at the first step on a solid non-transparent block at
parameter t, return `max 3 (15 − ⌊t/5⌋)`; full intensity if no step is
blocked. -/
def calculateSunlight (cfg : LightingConfig) (sunDirX sunDirY : ℚ)
    (wx wy wz : ℚ) (getBlockAt : ℤ → ℤ → ℤ → ℕ) : ℚ :=
  if cfg.enableDynamicShadows = false then cfg.sunIntensity
  else if cfg.timeOfDay / 24000 < 1 / 4 ∨ 3 / 4 < cfg.timeOfDay / 24000 then 2
  else
    match ((List.range 20).map (fun i => i + 1)).find?
        (sunRayHit wx wy wz sunDirX sunDirY getBlockAt) with
    | some i => ((max 3 (15 - ⌊((i : ℚ) / 20 * 50) / 5⌋) : ℤ) : ℚ)
    | none => cfg.sunIntensity

/-- Source `LightingSystem.calculateLightLevel` (part_001 lines 160–196):
start from 0, fold in the sun contribution when sunlight is enabled, take
the maximum over all point-source contributions, clamp to 15.  The
source's conditional `maxLight = max(maxLight, lightLevel)` (executed only
when the raw level is positive and the path unblocked) is
`max m (pointContribution …)` here, since the accumulator never drops
below 0 and the contribution of a skipped source is 0. -/
def calculateLightLevel (cfg : LightingConfig) (sunDirX sunDirY : ℚ)
    (wx wy wz : ℚ) (lightSources : List LightSource)
    (getBlockAt : ℤ → ℤ → ℤ → ℕ) : ℚ :=
  let maxLight : ℚ := 0
  let maxLight := if cfg.enableSunlight then
      max maxLight (calculateSunlight cfg sunDirX sunDirY wx wy wz getBlockAt)
    else maxLight
  let maxLight := lightSources.foldl
    (fun m source => max m (pointContribution wx wy wz source getBlockAt)) maxLight
  min 15 maxLight

/-- World with a single stone block at one cell, air everywhere else. -/
def stoneOnlyAt (px py pz : ℤ) : ℤ → ℤ → ℤ → ℕ :=
  fun x y z => if x = px ∧ y = py ∧ z = pz then BlockType.STONE else BlockType.AIR

/-- C8 amended. With dynamic shadows enabled, a sun query at any time of
day strictly inside the night window (timeOfDay/24000 < 1/4 or > 3/4 —
note this excludes exactly 18000) returns the fixed minimal night floor
2, which is positive and, whenever the configured day maximum exceeds 2
(the default is 15), strictly below that maximum — for every sample
position, sun direction and chunk contents. -/
theorem night_ambient_floor (cfg : LightingConfig) (sunDirX sunDirY wx wy wz : ℚ)
    (gba : ℤ → ℤ → ℤ → ℕ)
    (hshadows : cfg.enableDynamicShadows = true)
    (hnight : cfg.timeOfDay / 24000 < 1 / 4 ∨ 3 / 4 < cfg.timeOfDay / 24000)
    (hsun : 2 < cfg.sunIntensity) :
    calculateSunlight cfg sunDirX sunDirY wx wy wz gba = 2
    ∧ (0 : ℚ) < 2 ∧ (2 : ℚ) < cfg.sunIntensity := by
  refine ⟨?_, by norm_num, hsun⟩
  unfold calculateSunlight
  rw [if_neg (by simp [hshadows]), if_pos hnight]

/-- Witness for the amended C8 at a concrete input: default config at
time 21000 (deep night), arbitrary position, empty world. -/
theorem night_ambient_floor_witness :
    calculateSunlight ⟨true, true, 15, 21000⟩ 0 (-1) 0 0 0 (fun _ _ _ => BlockType.AIR) = 2
    ∧ (0 : ℚ) < 2 ∧ (2 : ℚ) < (LightingConfig.mk true true 15 21000).sunIntensity :=
  night_ambient_floor ⟨true, true, 15, 21000⟩ 0 (-1) 0 0 0 _
    rfl (by norm_num) (by norm_num)

/-- Counterexample to C8 as stated.  The code documents 18000 as midnight
(part_001 line 115) and the sun is then at (cos 3π/2, sin 3π/2) = (0,−1),
below the horizon; but the night test `t/24000 < 0.25 ∨ t/24000 > 0.75`
is strict, 18000/24000 = 0.75 fails it, and in an empty world the query
returns the full day intensity 15, not the night floor 2. -/
theorem midnight_exact_counterexample :
    calculateSunlight ⟨true, true, 15, 18000⟩ 0 (-1) 0 0 0 (fun _ _ _ => BlockType.AIR) = 15
    ∧ (15 : ℚ) ≠ 2 := by
  constructor
  · unfold calculateSunlight
    rw [if_neg (by simp), if_neg (by norm_num)]
    rw [List.find?_eq_none.mpr
      (fun i _ => by simp [sunRayHit, solidOpaque, blockTransparent])]
  · norm_num

/-- C7 divergence, evaluated at failing inputs.  Noon (time 6000, sun
direction (0,1)), sample at the origin, default intensity 15.  With a
stone occluder at (0,3,0) — hit by the very first ray step, parameter
t = 2.5 — the returned sun intensity is `max 3 (15 − ⌊2.5/5⌋) = 15`:
the full intensity, not reduced at all.  With the occluder far away at
(0,50,0) — hit at the last step, t = 50 — the result is
`max 3 (15 − 10) = 5`.  The closer occluder thus yields the brighter
result, refuting "reduced below full intensity, decreasing as the
occluder gets closer". -/
theorem calculateSunlight_closer_occluder_brighter :
    calculateSunlight ⟨true, true, 15, 6000⟩ 0 1 0 0 0 (stoneOnlyAt 0 3 0) = 15
    ∧ calculateSunlight ⟨true, true, 15, 6000⟩ 0 1 0 0 0 (stoneOnlyAt 0 50 0) = 5
    ∧ (5 : ℚ) < 15 := by
  refine ⟨?_, ?_, by norm_num⟩
  · unfold calculateSunlight
    rw [if_neg (by simp), if_neg (by norm_num)]
    rw [show ((List.range 20).map (fun i => i + 1)) =
      [1, 2, 3, 4, 5, 6, 7, 8, 9, 10, 11, 12, 13, 14, 15, 16, 17, 18, 19, 20] by decide]
    rw [List.find?_cons_of_pos _ (by
      norm_num [sunRayHit, jsRound, round_eq, stoneOnlyAt, solidOpaque, blockTransparent,
        BlockType.STONE, BlockType.AIR, BlockType.WATER])]
    norm_num
  · unfold calculateSunlight
    rw [if_neg (by simp), if_neg (by norm_num)]
    rw [show ((List.range 20).map (fun i => i + 1)) =
      [1, 2, 3, 4, 5, 6, 7, 8, 9, 10, 11, 12, 13, 14, 15, 16, 17, 18, 19, 20] by decide]
    iterate 19 rw [List.find?_cons_of_neg _ (by
      norm_num [sunRayHit, jsRound, round_eq, stoneOnlyAt, solidOpaque, blockTransparent,
        BlockType.STONE, BlockType.AIR, BlockType.WATER])]
    rw [List.find?_cons_of_pos _ (by
      norm_num [sunRayHit, jsRound, round_eq, stoneOnlyAt, solidOpaque, blockTransparent,
        BlockType.STONE, BlockType.AIR, BlockType.WATER])]
    norm_num

/-! ## ChunkManager.ts

The resident-chunk `Map<string, Chunk>` keyed by `"x,y,z"` is embedded as
the finite set of resident chunk positions (the key is injective in the
position); `loadingChunks` is empty before and after every complete
`updateChunks` call and is omitted.  Distance tests compare
`Math.sqrt(dx²+dy²+dz²)` with a non-negative config bound and are
embedded exactly on squares: `√n > U ↔ n > U²`.  Render and unload
distances are whole numbers of chunks (defaults 3 and 5); the loop bounds
`-renderDistance..renderDistance` require an integral render distance. -/

/-- Source interface `ChunkManagerConfig` (ChunkManager.ts lines 9–12). -/
structure ChunkManagerConfig where
  renderDistance : ℕ
  unloadDistance : ℕ
deriving DecidableEq, Repr

/-- Source `DEFAULT_CHUNK_MANAGER_CONFIG`: render 3, unload 5. -/
def DEFAULT_CHUNK_MANAGER_CONFIG : ChunkManagerConfig :=
  ⟨3, 5⟩

/-- Mutable state of the `ChunkManager`: the resident chunk set and the
last observed player chunk position. -/
structure ChunkManagerState where
  chunks : Finset ChunkPosition
  lastPlayerChunkPosition : Option ChunkPosition
deriving DecidableEq

/-- Source `ChunkManager.worldToChunkPosition` (ChunkManager.ts lines
185–191): floor-divide each world coordinate by the chunk edge. -/
def worldToChunkPosition (p : ℚ × ℚ × ℚ) : ChunkPosition :=
  ⟨⌊p.1 / (CHUNK_SIZE : ℚ)⌋, ⌊p.2.1 / (CHUNK_SIZE : ℚ)⌋, ⌊p.2.2 / (CHUNK_SIZE : ℚ)⌋⟩

/-- Squared chunk-grid distance `dx² + dy² + dz²` as summed in
`unloadDistantChunks` (ChunkManager.ts lines 144–148). -/
def chunkDistSq (p c : ChunkPosition) : ℤ :=
  (p.x - c.x) ^ 2 + (p.y - c.y) ^ 2 + (p.z - c.z) ^ 2

/-- Candidate set of `loadChunksAroundPlayer` (ChunkManager.ts lines
84–107): offsets in the cube [−R, R]³ passing the sphere check
`√(dx²+dy²+dz²) ≤ R`, translated to the player's chunk. -/
def chunksInRenderDistance (center : ChunkPosition) (renderDistance : ℕ) : Finset ChunkPosition :=
  (((Finset.Icc (-(renderDistance : ℤ)) (renderDistance : ℤ)) ×ˢ
      (Finset.Icc (-(renderDistance : ℤ)) (renderDistance : ℤ)) ×ˢ
      (Finset.Icc (-(renderDistance : ℤ)) (renderDistance : ℤ))).filter
    (fun d => d.1 ^ 2 + d.2.1 ^ 2 + d.2.2 ^ 2 ≤ (renderDistance : ℤ) ^ 2)).image
    (fun d => ⟨center.x + d.1, center.y + d.2.1, center.z + d.2.2⟩)

/-- Source `ChunkManager.updateChunks` (ChunkManager.ts lines 54–75): if
the player is still in the chunk of the previous tick, do nothing; else
record the new position, load every candidate within render distance that
is not already resident, and then unload every resident chunk whose
distance from the player chunk strictly exceeds the unload distance
(`unloadDistantChunks`, lines 140–160). -/
def updateChunks (cfg : ChunkManagerConfig) (s : ChunkManagerState)
    (playerPosition : ℚ × ℚ × ℚ) : ChunkManagerState :=
  let currentChunkPos := worldToChunkPosition playerPosition
  if s.lastPlayerChunkPosition = some currentChunkPos then s
  else
    let loaded := s.chunks ∪ chunksInRenderDistance currentChunkPos cfg.renderDistance
    let kept := loaded.filter
      (fun p => ¬ (cfg.unloadDistance : ℤ) ^ 2 < chunkDistSq p currentChunkPos)
    ⟨kept, some currentChunkPos⟩

/-- Concrete stale state refuting C9 as stated: a chunk at distance 100
is resident while the recorded player chunk already equals the chunk of
the incoming position. -/
def staleState : ChunkManagerState :=
  ⟨{⟨100, 0, 0⟩}, some ⟨0, 0, 0⟩⟩

/-- Counterexample to C9 as stated: with the default config, an
`updateChunks` call whose viewpoint chunk equals the previous tick's
takes the early no-op exit, so the resident chunk at distance 100 — far
beyond the unload distance 5 — is neither disposed nor removed. -/
theorem updateChunks_early_exit_counterexample :
    updateChunks DEFAULT_CHUNK_MANAGER_CONFIG staleState (1, 2, 3) = staleState
    ∧ ChunkPosition.mk 100 0 0 ∈
        (updateChunks DEFAULT_CHUNK_MANAGER_CONFIG staleState (1, 2, 3)).chunks
    ∧ (DEFAULT_CHUNK_MANAGER_CONFIG.unloadDistance : ℤ) ^ 2 <
        chunkDistSq ⟨100, 0, 0⟩ (worldToChunkPosition (1, 2, 3)) := by
  have hc : worldToChunkPosition ((1 : ℚ), (2 : ℚ), (3 : ℚ)) = ⟨0, 0, 0⟩ := by
    unfold worldToChunkPosition CHUNK_SIZE
    have h1 : ⌊(1 : ℚ) / (16 : ℕ)⌋ = 0 := by norm_num
    have h2 : ⌊(2 : ℚ) / (16 : ℕ)⌋ = 0 := by norm_num
    have h3 : ⌊(3 : ℚ) / (16 : ℕ)⌋ = 0 := by norm_num
    rw [h1, h2, h3]
  have heq : updateChunks DEFAULT_CHUNK_MANAGER_CONFIG staleState (1, 2, 3) = staleState := by
    unfold updateChunks
    rw [hc]
    rfl
  refine ⟨heq, ?_, ?_⟩
  · rw [heq]
    decide
  · rw [hc]
    decide

/-- C9 amended. After an `updateChunks` step in which the viewpoint's
chunk coordinate differs from the previously recorded one (so the early
no-op exit is not taken): every previously resident chunk within squared
distance U² of the viewpoint chunk remains resident, every chunk beyond
U² is absent from the result, and in fact every resident chunk of the
result lies within U². -/
theorem updateChunks_hysteresis (cfg : ChunkManagerConfig) (s : ChunkManagerState)
    (pos : ℚ × ℚ × ℚ)
    (hmove : s.lastPlayerChunkPosition ≠ some (worldToChunkPosition pos)) :
    (∀ p ∈ s.chunks,
      chunkDistSq p (worldToChunkPosition pos) ≤ (cfg.unloadDistance : ℤ) ^ 2 →
      p ∈ (updateChunks cfg s pos).chunks)
    ∧ (∀ p ∈ (updateChunks cfg s pos).chunks,
      chunkDistSq p (worldToChunkPosition pos) ≤ (cfg.unloadDistance : ℤ) ^ 2)
    ∧ (∀ p, (cfg.unloadDistance : ℤ) ^ 2 < chunkDistSq p (worldToChunkPosition pos) →
      p ∉ (updateChunks cfg s pos).chunks) := by
  unfold updateChunks
  rw [if_neg hmove]
  refine ⟨?_, ?_, ?_⟩
  · intro p hp hnear
    simp only [Finset.mem_filter, Finset.mem_union]
    exact ⟨Or.inl hp, not_lt.mpr hnear⟩
  · intro p hp
    simp only [Finset.mem_filter] at hp
    exact not_lt.mp hp.2
  · intro p hfar hp
    simp only [Finset.mem_filter] at hp
    exact hp.2 hfar

set_option maxRecDepth 4096 in
/-- Witness for the amended C9 at a concrete input: from a fresh state
with one nearby resident chunk, an update at world position (1,2,3)
keeps the chunk at squared distance 1 ≤ 25 resident. -/
theorem updateChunks_hysteresis_witness :
    ChunkPosition.mk 1 0 0 ∈
      (updateChunks DEFAULT_CHUNK_MANAGER_CONFIG ⟨{⟨1, 0, 0⟩}, none⟩ (1, 2, 3)).chunks := by
  have hc : worldToChunkPosition ((1 : ℚ), (2 : ℚ), (3 : ℚ)) = ⟨0, 0, 0⟩ := by
    unfold worldToChunkPosition CHUNK_SIZE
    have h1 : ⌊(1 : ℚ) / (16 : ℕ)⌋ = 0 := by norm_num
    have h2 : ⌊(2 : ℚ) / (16 : ℕ)⌋ = 0 := by norm_num
    have h3 : ⌊(3 : ℚ) / (16 : ℕ)⌋ = 0 := by norm_num
    rw [h1, h2, h3]
  exact (updateChunks_hysteresis DEFAULT_CHUNK_MANAGER_CONFIG ⟨{⟨1, 0, 0⟩}, none⟩ (1, 2, 3)
      (by simp)).1 ⟨1, 0, 0⟩ (by decide) (by rw [hc]; decide)

/-! ## LightingManager.ts

`LightingManager` queries blocks through `this.chunkManager.getChunk`;
the resident-chunk map is embedded as a lookup function
`ChunkPosition → Option Chunk`. -/

/-- Source `LightingManager.isBlockSolidAt` (LightingManager.ts lines
155–189): find the chunk of the world position; an unloaded chunk does
not block light (`return false`); otherwise read the local block and
report solid iff it is neither air nor water. -/
def isBlockSolidAt (chunks : ChunkPosition → Option Chunk) (wx wy wz : ℚ) : Bool :=
  let chunkX := ⌊wx / (CHUNK_SIZE : ℚ)⌋
  let chunkY := ⌊wy / (CHUNK_SIZE : ℚ)⌋
  let chunkZ := ⌊wz / (CHUNK_SIZE : ℚ)⌋
  match chunks ⟨chunkX, chunkY, chunkZ⟩ with
  | none => false
  | some chunk =>
      let localX := ⌊wx⌋ - chunkX * (CHUNK_SIZE : ℤ)
      let localY := ⌊wy⌋ - chunkY * (CHUNK_SIZE : ℤ)
      let localZ := ⌊wz⌋ - chunkZ * (CHUNK_SIZE : ℤ)
      if localX < 0 ∨ localX ≥ (CHUNK_SIZE : ℤ) ∨ localY < 0 ∨ localY ≥ (CHUNK_SIZE : ℤ) ∨
          localZ < 0 ∨ localZ ≥ (CHUNK_SIZE : ℤ) then
        false
      else
        let blockType := chunk.getBlock localX localY localZ
        (blockType != BlockType.AIR) && (blockType != BlockType.WATER)

/-- Sample point i of `LightingManager.calculateShadow` (LightingManager.ts
lines 122–150): the ray starts 0.1 units along the light direction and
advances in `maxDistance / steps` increments, `steps = min 10 ⌊maxDistance⌋`. -/
def shadowSamplePoint (position lightDir : ℚ × ℚ × ℚ) (maxDistance : ℚ)
    (i : ℕ) : ℚ × ℚ × ℚ :=
  let rayStart := (position.1 + lightDir.1 * (1 / 10),
    position.2.1 + lightDir.2.1 * (1 / 10),
    position.2.2 + lightDir.2.2 * (1 / 10))
  let steps : ℤ := min 10 ⌊maxDistance⌋
  let stepSize := maxDistance / (steps : ℚ)
  (rayStart.1 + lightDir.1 * ((i : ℚ) * stepSize),
   rayStart.2.1 + lightDir.2.1 * ((i : ℚ) * stepSize),
   rayStart.2.2 + lightDir.2.2 * ((i : ℚ) * stepSize))

/-- Source `LightingManager.calculateShadow` (LightingManager.ts lines
122–150): walk the sample points; at the first one inside a solid block
return the partial light factor `(1 − i/steps) · 0.3`; return 1.0 (no
obstruction) when no sample is solid. -/
def calculateShadow (chunks : ChunkPosition → Option Chunk)
    (position lightDir : ℚ × ℚ × ℚ) (maxDistance : ℚ) : ℚ :=
  let steps : ℤ := min 10 ⌊maxDistance⌋
  match (List.range steps.toNat).find? (fun i =>
      isBlockSolidAt chunks (shadowSamplePoint position lightDir maxDistance i).1
        (shadowSamplePoint position lightDir maxDistance i).2.1
        (shadowSamplePoint position lightDir maxDistance i).2.2) with
  | some i => (1 - (i : ℚ) / (steps : ℚ)) * (3 / 10)
  | none => 1

/-- An unloaded chunk never reports a solid block. -/
theorem isBlockSolidAt_of_unloaded (chunks : ChunkPosition → Option Chunk)
    (wx wy wz : ℚ) (h : chunks (worldToChunkPosition (wx, wy, wz)) = none) :
    isBlockSolidAt chunks wx wy wz = false := by
  have h' : chunks ⟨⌊wx / (CHUNK_SIZE : ℚ)⌋, ⌊wy / (CHUNK_SIZE : ℚ)⌋,
      ⌊wz / (CHUNK_SIZE : ℚ)⌋⟩ = none := h
  simp only [isBlockSolidAt]
  rw [h']

/-- C10. The lighting engine treats any world position in a chunk that is
not resident as non-solid — `isBlockSolidAt` returns false when the chunk
lookup fails — and consequently a shadow ray all of whose sample points
lie in unloaded chunks finds no obstruction: `calculateShadow` returns
the full factor 1, so such a sample is lit unattenuated. -/
theorem unloaded_chunks_never_occlude :
    (∀ (chunks : ChunkPosition → Option Chunk) (wx wy wz : ℚ),
      chunks (worldToChunkPosition (wx, wy, wz)) = none →
      isBlockSolidAt chunks wx wy wz = false)
    ∧ (∀ (chunks : ChunkPosition → Option Chunk) (position lightDir : ℚ × ℚ × ℚ)
        (maxDistance : ℚ),
      (∀ i : ℕ,
        chunks (worldToChunkPosition (shadowSamplePoint position lightDir maxDistance i)) =
          none) →
      calculateShadow chunks position lightDir maxDistance = 1) := by
  constructor
  · exact isBlockSolidAt_of_unloaded
  · intro chunks position lightDir maxDistance h
    have hb : ∀ i : ℕ,
        isBlockSolidAt chunks (shadowSamplePoint position lightDir maxDistance i).1
          (shadowSamplePoint position lightDir maxDistance i).2.1
          (shadowSamplePoint position lightDir maxDistance i).2.2 = false :=
      fun i => isBlockSolidAt_of_unloaded chunks _ _ _ (h i)
    have hnone : (List.range (min (10 : ℤ) ⌊maxDistance⌋).toNat).find? (fun i =>
        isBlockSolidAt chunks (shadowSamplePoint position lightDir maxDistance i).1
          (shadowSamplePoint position lightDir maxDistance i).2.1
          (shadowSamplePoint position lightDir maxDistance i).2.2) = none :=
      List.find?_eq_none.mpr (fun i _ => by rw [hb i]; simp)
    simp only [calculateShadow]
    rw [hnone]

/-- Witness for C10 at concrete inputs: with no chunks resident at all,
the solidity test at (3,4,5) is false and a length-100 shadow ray from
the origin returns the full light factor 1. -/
theorem unloaded_chunks_never_occlude_witness :
    isBlockSolidAt (fun _ => none) 3 4 5 = false
    ∧ calculateShadow (fun _ => none) (0, 0, 0) (0, 1, 0) 100 = 1 :=
  ⟨unloaded_chunks_never_occlude.1 (fun _ => none) 3 4 5 rfl,
   unloaded_chunks_never_occlude.2 (fun _ => none) (0, 0, 0) (0, 1, 0) 100 (fun _ => rfl)⟩

end Minecraft
